import Mathlib

/-
Verification of the detail-view field aggregation core
(legistar/base/detailview.py): the DetailVisitor traversal, the
TextRenderer flattening algorithm, the finalize re-keying step and the
DetailField accessors, together with the string/regex helpers they use.
Machine strings are modelled as Lean String (a list of characters);
Python dictionaries as insertion-ordered association lists; Python
exceptions as the error branch of Except.
-/

namespace LegistarDetail

/-- ASCII whitespace characters removed by Python str.strip with no argument. -/
def pyWs (c : Char) : Bool :=
  c = ' ' || c = '\t' || c = '\n' || c = '\r' || c = Char.ofNat 11 || c = Char.ofNat 12

/-- Drop characters satisfying p from both ends of a list, as Python str.strip does. -/
def stripEnds (p : Char → Bool) (l : List Char) : List Char :=
  ((l.dropWhile p).reverse.dropWhile p).reverse

/-- Python s.strip() with no argument: surrounding whitespace removed. -/
def pyStrip (s : String) : String := ⟨stripEnds pyWs s.data⟩

/-- Python s.strip(c) where c is the colon character: ALL leading and trailing
colons removed (both ends, not only a single trailing one). -/
def stripColons (s : String) : String := ⟨stripEnds (fun c => c = ':') s.data⟩

/-- Removal of one trailing colon only, following the literal words of the
spec claims (the label with trailing colon stripped); used solely to compare
the claimed key derivation with the one the source actually performs. -/
def stripTrailingColonClaimed (s : String) : String :=
  if s.data.getLast? = some ':' then ⟨s.data.dropLast⟩ else s

/-- Leftmost-match helper modelling Python re.search for patterns of the
form PAT(GROUP): scan start positions left to right; at each position where
the literal pattern text is a prefix, run the group matcher on the
remainder; the first position where both succeed wins. -/
def searchGroup (pat : List Char) (grp : List Char → Option (List Char)) :
    List Char → Option (List Char)
  | [] => none
  | c :: rest =>
    match (if (c :: rest).take pat.length = pat then grp ((c :: rest).drop pat.length)
           else none) with
    | some g => some g
    | none => searchGroup pat grp rest

/-- Greedy group (.+): one or more non-newline characters, as many as possible. -/
def dotPlus (rest : List Char) : Option (List Char) :=
  let t := rest.takeWhile (fun c => c ≠ '\n')
  if t = [] then none else some t

/-- Lazy group for the pattern (.+?)X: the shortest non-empty run of
non-newline characters followed by a literal X; accRev holds the reversed
group collected so far. -/
def lazyUptoX (accRev : List Char) : List Char → Option (List Char)
  | [] => none
  | c :: rest =>
    if c = 'X' ∧ accRev ≠ [] then some accRev.reverse
    else if c = '\n' then none
    else lazyUptoX (c :: accRev) rest

/-- Group 1 of re.search against the hyperlink id pattern used by visit_a. -/
def reHyp (s : String) : Option String :=
  (searchGroup "_hyp".data dotPlus s.data).map fun l => ⟨l⟩

/-- Group 1 of re.search against the label-with-X id pattern used by visit_span. -/
def reLblX (s : String) : Option String :=
  (searchGroup "_lbl".data (lazyUptoX []) s.data).map fun l => ⟨l⟩

/-- Group 1 of re.search against the plain label id pattern used by visit_span. -/
def reLbl (s : String) : Option String :=
  (searchGroup "_lbl".data dotPlus s.data).map fun l => ⟨l⟩

/-- Group 1 of re.search against the table-cell id pattern used by
visit_span and visit_td. -/
def reTd (s : String) : Option String :=
  (searchGroup "_td".data dotPlus s.data).map fun l => ⟨l⟩

/-- Characters a URL scheme may contain, per urllib.parse. -/
def schemeChar (c : Char) : Bool :=
  c.isAlpha || c.isDigit || c = '+' || c = '-' || c = '.'

/-- Model of urllib.parse.urlparse(url).path (Python standard library,
external to the repository): strip a leading scheme, a //netloc part, the
fragment, the query, and the params after a semicolon in the last path
segment; what remains is the path component. -/
def urlparsePath (s : String) : String :=
  let l := s.data
  let l := match l.findIdx? (fun c => c = ':') with
    | some i =>
      if 0 < i ∧ (l.take i).all schemeChar ∧ ((l.head?.map Char.isAlpha).getD false)
      then l.drop (i+1) else l
    | none => l
  let l := if l.take 2 = ['/', '/']
           then (l.drop 2).dropWhile (fun c => ¬(c = '/' ∨ c = '?' ∨ c = '#'))
           else l
  let l := l.takeWhile (fun c => c ≠ '#')
  let l := l.takeWhile (fun c => c ≠ '?')
  let l := if l.contains '/' then
      let segRev := l.reverse.takeWhile (fun c => c ≠ '/')
      let pre := l.take (l.length - segRev.length)
      pre ++ (segRev.reverse.takeWhile (fun c => c ≠ ';'))
    else l.takeWhile (fun c => c ≠ ';')
  ⟨l⟩

/- Tree Model node, as produced by visitors.ext.etree.from_html (external
to the repository, consumed as a pre-built tree): a tag name, the html
attribute mapping (which may lack id, href or src), optional text and tail
text, and an ordered list of children. -/
mutual
inductive Node : Type where
  | mk (tag : String) (attrs : List (String × String)) (text : Option String)
       (tail : Option String) (children : NodeList) : Node
inductive NodeList : Type where
  | nil : NodeList
  | cons (hd : Node) (tl : NodeList) : NodeList
end

/-- Tag name of a node. -/
def Node.tag : Node → String
  | .mk t _ _ _ _ => t

/-- Html attribute mapping of a node. -/
def Node.attrs : Node → List (String × String)
  | .mk _ a _ _ _ => a

/-- Text content of a node, absent when the parsed element had none. -/
def Node.text : Node → Option String
  | .mk _ _ tx _ _ => tx

/-- Tail text of a node, absent when the parsed element had none. -/
def Node.tail : Node → Option String
  | .mk _ _ _ tl _ => tl

/-- Children of a node, in document order. -/
def Node.children : Node → NodeList
  | .mk _ _ _ _ ch => ch

/-- Lookup of an html attribute by name; none models the Python test
key not in node being true. -/
def Node.attr (n : Node) (k : String) : Option String :=
  List.lookup k n.attrs

/-- First child of a node list, if any; models children[0]. -/
def NodeList.headOpt : NodeList → Option Node
  | .nil => none
  | .cons h _ => some h

/- Pre-order listing of a subtree: the node itself followed by the
pre-order listings of its children. -/
mutual
def preorderN : Node → List Node
  | .mk t a tx tl ch => .mk t a tx tl ch :: preorderL ch
def preorderL : NodeList → List Node
  | .nil => []
  | .cons h t => preorderN h ++ preorderL t
end

/-- Modelled from the spec: treebie-style node.find() iteration (the Tree
Model is external to the repository); per the spec it yields the
descendants of the node in document order. -/
def descendants (n : Node) : List Node := preorderL n.children

/-- Model of TextRenderer.scrub_text: replace the non-breaking space
(U+00A0) by a plain space, then strip surrounding whitespace. -/
def scrub_text (s : String) : String :=
  pyStrip ⟨s.data.map (fun c => if c = Char.ofNat 160 then ' ' else c)⟩

/- Model of the TextRenderer traversal with its accumulation buffer made
explicit: generic_visit appends one space when the buffer is non-empty,
then the scrubbed text of the node, then (recursively) every child, then
the scrubbed tail of the node, and suppresses the default second visit of
the children by raising Continue. -/
mutual
def renderN (buf : List Char) : Node → List Char
  | .mk _ _ text tail children =>
    let b1 := if buf = [] then buf else buf ++ [' ']
    let b2 := b1 ++ (scrub_text (text.getD "")).data
    let b3 := renderL b2 children
    b3 ++ (scrub_text (tail.getD "")).data
def renderL (buf : List Char) : NodeList → List Char
  | .nil => buf
  | .cons h t => renderL (renderN buf h) t
end

/-- One TextRenderer instance: only its accumulation buffer (an io.StringIO). -/
structure TextRenderer where
  buf : List Char

/-- A freshly constructed TextRenderer: empty buffer. -/
def TextRenderer.new : TextRenderer := ⟨[]⟩

/-- Run the visit traversal of a TextRenderer instance over a node,
mutating its buffer. -/
def TextRenderer.visitRun (r : TextRenderer) (n : Node) : TextRenderer :=
  ⟨renderN r.buf n⟩

/-- Model of TextRenderer.finalize: the buffer contents as the result string. -/
def TextRenderer.result (r : TextRenderer) : String := ⟨r.buf⟩

/-- Model of the idiom TextRenderer().visit(node): construct a fresh
renderer, traverse, return the final buffer contents. -/
def renderText (n : Node) : String := (TextRenderer.new.visitRun n).result

/-- Two renders of the same node exactly as the code performs them: each
call constructs a fresh TextRenderer, visits the node, and reads the
buffer; the pair collects both results in order. -/
def renderSeq (n : Node) : String × String :=
  let r1 := TextRenderer.new
  let r1 := r1.visitRun n
  let s1 := r1.result
  let r2 := TextRenderer.new
  let r2 := r2.visitRun n
  (s1, r2.result)

/-- One PartialFieldRecord: the per-slug accumulation dictionary with keys
label, node and url, each possibly absent. -/
structure FieldData where
  label : Option String
  node : Option Node
  url : Option String

/-- A freshly created per-slug record, as defaultdict(dict) makes one. -/
def FieldData.empty : FieldData := ⟨none, none, none⟩

/-- The accumulated slug-to-record mapping self.data: an association list
in insertion order, as a Python dict iterates. -/
abbrev Data := List (String × FieldData)

/-- Lookup in an insertion-ordered dictionary. -/
def dlookup {α : Type} : List (String × α) → String → Option α
  | [], _ => none
  | (k, v) :: rest, key => if k = key then some v else dlookup rest key

/-- Insert-or-overwrite in an insertion-ordered dictionary: an existing key
keeps its position, a new key is appended at the end. -/
def dinsert {α : Type} : List (String × α) → String → α → List (String × α)
  | [], key, v => [(key, v)]
  | (k, w) :: rest, key, v =>
    if k = key then (k, v) :: rest else (k, w) :: dinsert rest key v

/-- Get-or-create update of one slug record, as defaultdict access followed
by mutation: an existing entry is updated in place, a missing entry is
created from the default and appended. -/
def dupdate {α : Type} (d0 : α) : List (String × α) → String → (α → α) → List (String × α)
  | [], key, f => [(key, f d0)]
  | (k, v) :: rest, key, f =>
    if k = key then (k, f v) :: rest else (k, v) :: dupdate d0 rest key f

/-- The record currently held for a slug, or a fresh empty one; used to
state per-slug properties of the accumulation. -/
def getRec (d : Data) (k : String) : FieldData :=
  (dlookup d k).getD FieldData.empty

/-- Effect of a matching visit_a on the record of the matched slug: set
url and node, then set label from the rendered anchor text (whitespace
stripped, then colons stripped) only when no label is present yet. -/
def anchorUpd (n : Node) (href : String) (r : FieldData) : FieldData :=
  let r1 : FieldData := { r with url := some href, node := some n }
  if r1.label = none
  then { r1 with label := some (stripColons (pyStrip (renderText n))) }
  else r1

/-- Model of DetailVisitor.visit_a: skip unless both id and href attributes
are present and the id matches the hyperlink pattern; otherwise update the
matched slug record via anchorUpd. -/
def visit_a (d : Data) (n : Node) : Data :=
  match Node.attr n "id" with
  | none => d
  | some idv =>
    match Node.attr n "href" with
    | none => d
    | some href =>
      match reHyp idv with
      | none => d
      | some slug => dupdate FieldData.empty d slug (anchorUpd n href)

/-- Model of DetailVisitor.visit_span: on a label-with-X id match, read the
text of the FIRST child unconditionally (IndexError when there are no
children, KeyError when the first child has no text) and overwrite the
label; otherwise on a plain label id match or a table-cell id match, set
the node; otherwise no effect. -/
def visit_span (d : Data) (n : Node) : Except String Data :=
  match Node.attr n "id" with
  | none => .ok d
  | some idv =>
    match reLblX idv with
    | some slug =>
      match (Node.children n).headOpt with
      | none => .error "IndexError"
      | some c =>
        match Node.text c with
        | none => .error "KeyError"
        | some t =>
          .ok (dupdate FieldData.empty d slug
                (fun r => { r with label := some (stripColons (pyStrip t)) }))
    | none =>
      match reLbl idv with
      | some slug =>
        .ok (dupdate FieldData.empty d slug (fun r => { r with node := some n }))
      | none =>
        match reTd idv with
        | some slug =>
          .ok (dupdate FieldData.empty d slug (fun r => { r with node := some n }))
        | none => .ok d

/-- Model of DetailVisitor.visit_td: on a table-cell id match, set the
node of the matched slug record; otherwise no effect. -/
def visit_td (d : Data) (n : Node) : Data :=
  match Node.attr n "id" with
  | none => d
  | some idv =>
    match reTd idv with
    | none => d
    | some slug => dupdate FieldData.empty d slug (fun r => { r with node := some n })

/-- Dispatch of one node visit on the tag, as get_nodekey yields the tag
attribute; tags without a handler have no effect on the accumulation. -/
def visitOne (d : Data) (n : Node) : Except String Data :=
  if Node.tag n = "a" then .ok (visit_a d n)
  else if Node.tag n = "span" then visit_span d n
  else if Node.tag n = "td" then .ok (visit_td d n)
  else .ok d

/- Pre-order traversal of the whole tree by the DetailVisitor, threading
the accumulation and propagating any raised error. -/
mutual
def visitTree (d : Data) : Node → Except String Data
  | .mk t a tx tl ch =>
    match visitOne d (.mk t a tx tl ch) with
    | .error e => .error e
    | .ok d1 => visitList d1 ch
def visitList (d : Data) : NodeList → Except String Data
  | .nil => .ok d
  | .cons h t =>
    match visitTree d h with
    | .error e => .error e
    | .ok d1 => visitList d1 t
end

/-- One finalized field accessor: a DetailField wrapping the record data
(cfg.make_child(DetailField, data) keeps exactly the record reference). -/
structure DetailField where
  data : FieldData

/-- The finalized mapping from readable keys to field accessors. -/
abbrev FMap := List (String × DetailField)

/-- Key under which finalize files a record: the label when one was set,
else the raw slug, with ALL leading and trailing colons stripped. -/
def aliasOf (slug : String) (r : FieldData) : String :=
  stripColons (r.label.getD slug)

/-- One step of DetailVisitor.finalize: insert the wrapped record under its
alias, and also under the raw slug when the alias differs from it. -/
def finStep (acc : FMap) (kv : String × FieldData) : FMap :=
  let al := aliasOf kv.1 kv.2
  let v : DetailField := ⟨kv.2⟩
  let acc1 := dinsert acc al v
  if al = kv.1 then acc1 else dinsert acc1 kv.1 v

/-- Model of DetailVisitor.finalize: fold the accumulated records, in
insertion order, into the dual-keyed result mapping. -/
def finalizeData (d : Data) : FMap := d.foldl finStep []

/-- Key derivation following the literal words of the claims instead of the
source: the label with one trailing colon stripped, or the RAW slug when no
label was set; used only to compare the claimed finalize with the real one. -/
def aliasClaimed (slug : String) (r : FieldData) : String :=
  match r.label with
  | some l => stripTrailingColonClaimed l
  | none => slug

/-- Finalize as the claim words it, built on aliasClaimed; compared against
finalizeData to settle the re-keying claim. -/
def finStepClaimed (acc : FMap) (kv : String × FieldData) : FMap :=
  let al := aliasClaimed kv.1 kv.2
  let v : DetailField := ⟨kv.2⟩
  let acc1 := dinsert acc al v
  if al = kv.1 then acc1 else dinsert acc1 kv.1 v

/-- Claim-worded finalize over a whole accumulation. -/
def finalizeClaimed (d : Data) : FMap := d.foldl finStepClaimed []

/-- Model of DetailVisitor.visit followed by finalize: traverse from an
empty accumulation, then re-key. -/
def runVisitor (root : Node) : Except String FMap :=
  (visitTree [] root).map finalizeData

/-- Model of the DetailField.node property: the record entry named node,
raising KeyError when the record never received one. -/
def DetailField.node (f : DetailField) : Except String Node :=
  match f.data.node with
  | some n => .ok n
  | none => .error "KeyError"

/-- Model of DetailField._is_blank_placeholder: the rendered text equals
the exact sentinel string. -/
def isBlankPlaceholder (t : String) : Bool :=
  decide (t = "Not available")

/-- Model of DetailField.get_text: render the wrapped node with a fresh
TextRenderer; return the text unless it is the blank placeholder, in which
case return absent. -/
def DetailField.get_text (f : DetailField) : Except String (Option String) := do
  let n ← f.node
  let t := renderText n
  if isBlankPlaceholder t then pure none else pure (some t)

/-- First descendant carrying an href attribute, scanning in document order. -/
def firstHref : List Node → Option String
  | [] => none
  | d :: rest =>
    match Node.attr d "href" with
    | some h => some h
    | none => firstHref rest

/-- Model of DetailField.get_url: scan the descendants of the wrapped node
for the first one with an href attribute; absent when none has one. -/
def DetailField.get_url (f : DetailField) : Except String (Option String) := do
  let n ← f.node
  pure (firstHref (descendants n))

/-- Modelled from the spec: the text attribute backing DetailField.is_blank
is supplied by FieldAccessor (legistar/base/field.py, a repository file not
under src/); per the spec design notes the faithful behavior is a fresh
render of the wrapped node text. -/
def DetailField.freshText (f : DetailField) : Except String String := do
  let n ← f.node
  pure (renderText n)

/-- Model of DetailField.is_blank over the spec-modelled fresh text: true
exactly when the freshly rendered text is the blank placeholder. -/
def DetailField.is_blank (f : DetailField) : Except String Bool := do
  let t ← f.freshText
  pure (isBlankPlaceholder t)

/-- The loop body of get_mimetype over the image-tagged descendants of the
parent: skip images without a src attribute; on the first image with one,
map the path of its url through the one-entry mimetype table, raising
KeyError on any other path; absent when the loop finishes. -/
def imgLoop (marker : String) : List Node → Except String (Option String)
  | [] => .ok none
  | d :: rest =>
    match Node.attr d "src" with
    | none => imgLoop marker rest
    | some gifUrl =>
      if urlparsePath gifUrl = marker then .ok (some "application/pdf")
      else .error "KeyError"

/-- Model of DetailField.get_mimetype: access the wrapped node (KeyError
when absent), then scan the image-tagged descendants of its parent; the
parent node is passed explicitly because the shallow tree carries no
upward links (node.parent is Tree Model navigation, external per the
spec); marker is the configured MIMETYPE_GIF_PDF path. -/
def DetailField.get_mimetype (marker : String) (f : DetailField) (parent : Node) :
    Except String (Option String) := do
  let _ ← f.node
  imgLoop marker ((descendants parent).filter (fun d => decide (Node.tag d = "img")))

/-- First image-tagged descendant of the parent that carries a src
attribute; the node get_mimetype inspects. -/
def firstImgWithSrc (parent : Node) : Option Node :=
  ((descendants parent).filter
    (fun d => decide (Node.tag d = "img") && (Node.attr d "src").isSome)).head?

/-- Absence of cross-slug key collisions between two accumulated entries:
neither the derived alias nor the raw slug of one coincides with the alias
or the raw slug of the other. -/
def noCollide (a b : String × FieldData) : Prop :=
  aliasOf a.1 a.2 ≠ aliasOf b.1 b.2 ∧ aliasOf a.1 a.2 ≠ b.1 ∧
  a.1 ≠ aliasOf b.1 b.2 ∧ a.1 ≠ b.1

/-- A span the label-with-X rule matches but that has no children: visiting
it indexes children[0] out of bounds. -/
def badSpan (n : Node) : Bool :=
  decide (Node.tag n = "span") &&
  (match Node.attr n "id" with
   | some idv => (reLblX idv).isSome
   | none => false) &&
  ((Node.children n).headOpt).isNone

/-- Presence, anywhere in the pre-order traversal of a tree, of a span
matching the label-with-X rule with no children. -/
def containsBadSpan (n : Node) : Bool := (preorderN n).any badSpan

/-- A childless element carrying only text, used as a rendered fragment. -/
def leafNode (t : String) : Node := .mk "span" [] (some t) none .nil

/-- A parent with two text fragments as children. -/
def pairTree (ta tb : String) : Node :=
  .mk "div" [] none none (.cons (leafNode ta) (.cons (leafNode tb) .nil))

/-- A parent with two non-empty text fragments separated by a fragment
whose text is empty. -/
def tripleEmptyTree (ta tb : String) : Node :=
  .mk "div" [] none none
    (.cons (leafNode ta) (.cons (leafNode "") (.cons (leafNode tb) .nil)))

/-- Concrete label span for slug A whose first child carries the text B. -/
def spanLabelAB : Node :=
  .mk "span" [("id", "_lblAX")] none none (.cons (.mk "font" [] (some "B") none .nil) .nil)

/-- Concrete value cell for slug B. -/
def tdSlugB : Node := .mk "td" [("id", "_tdB")] none none .nil

/-- Concrete value cell whose slug itself ends in a colon. -/
def tdSlugColon : Node := .mk "td" [("id", "_tdC:")] none none .nil

/-- Concrete tree for the finalize re-keying counterexample: a label span
giving slug A the label B, a value cell for slug B, and a value cell whose
slug is C followed by a colon. -/
def treeRekey : Node :=
  .mk "div" [] none none (.cons spanLabelAB (.cons tdSlugB (.cons tdSlugColon .nil)))

/-- Concrete anchor for slug A with rendered text L1. -/
def anchorL1 : Node := .mk "a" [("id", "_hypA"), ("href", "u")] (some "L1") none .nil

/-- Concrete label span for slug A whose first child carries the text L2. -/
def spanLabelAL2 : Node :=
  .mk "span" [("id", "_lblAX")] none none (.cons (.mk "font" [] (some "L2") none .nil) .nil)

/-- Concrete tree for the label-overwrite counterexample: the anchor sets
the label of slug A to L1, then the later label span overwrites it with L2. -/
def treeLabelOverwrite : Node :=
  .mk "div" [] none none (.cons anchorL1 (.cons spanLabelAL2 .nil))

/-- Concrete tree for the spacing counterexample: fragments a, empty, b. -/
def treeSpacing : Node := tripleEmptyTree "a" "b"

/-- Concrete anchor whose rendered text starts with a colon. -/
def anchorColon : Node := .mk "a" [("id", "_hypA"), ("href", "u")] (some ":View") none .nil

/-- Concrete span matching the label-with-X rule with no children. -/
def badSpanZ : Node := .mk "span" [("id", "_lblZX")] none none .nil

/-- Concrete tree containing the childless label span after an ordinary cell. -/
def treeBadSpan : Node := .mk "div" [] none none (.cons tdSlugB (.cons badSpanZ .nil))

/-- Concrete image node whose source url path is the pdf marker path. -/
def imgPdf : Node := .mk "img" [("src", "http://x/pdf.gif")] none none .nil

/-- Concrete parent holding the pdf image, for the get_mimetype witness. -/
def parentWithImg : Node := .mk "td" [] none none (.cons imgPdf .nil)

/-- Concrete span whose identifier matches only the plain label pattern. -/
def spanPlainLblB : Node := .mk "span" [("id", "_lblB")] none none .nil

/-- Concrete span whose identifier matches the table-cell pattern. -/
def spanTdB : Node := .mk "span" [("id", "_tdB")] none none .nil

/-- Lookup after an insert at the same key yields the inserted value. -/
theorem dlookup_dinsert_self {α : Type} (m : List (String × α)) (k : String) (v : α) :
    dlookup (dinsert m k v) k = some v := by
  induction m with
  | nil => simp [dinsert, dlookup]
  | cons hd tl ih =>
    obtain ⟨k1, v1⟩ := hd
    by_cases h : k1 = k
    · simp [dinsert, h, dlookup]
    · simp [dinsert, h, dlookup, ih]

/-- Lookup after an insert at a different key is unchanged. -/
theorem dlookup_dinsert_ne {α : Type} (m : List (String × α)) (k key : String) (v : α)
    (h : k ≠ key) : dlookup (dinsert m k v) key = dlookup m key := by
  induction m with
  | nil => simp [dinsert, dlookup, h]
  | cons hd tl ih =>
    obtain ⟨k1, v1⟩ := hd
    by_cases h1 : k1 = k
    · subst h1
      simp [dinsert, dlookup, h]
    · simp [dinsert, h1, dlookup, ih]

/-- Lookup after a get-or-create update at the same key. -/
theorem dlookup_dupdate_self {α : Type} (d0 : α) (m : List (String × α)) (k : String)
    (f : α → α) : dlookup (dupdate d0 m k f) k = some (f ((dlookup m k).getD d0)) := by
  induction m with
  | nil => simp [dupdate, dlookup]
  | cons hd tl ih =>
    obtain ⟨k1, v1⟩ := hd
    by_cases h : k1 = k
    · simp [dupdate, h, dlookup]
    · simp [dupdate, h, dlookup, ih]

/-- Lookup after a get-or-create update at a different key is unchanged. -/
theorem dlookup_dupdate_ne {α : Type} (d0 : α) (m : List (String × α)) (k key : String)
    (f : α → α) (h : k ≠ key) : dlookup (dupdate d0 m k f) key = dlookup m key := by
  induction m with
  | nil => simp [dupdate, dlookup, h]
  | cons hd tl ih =>
    obtain ⟨k1, v1⟩ := hd
    by_cases h1 : k1 = k
    · subst h1
      simp [dupdate, dlookup, h]
    · simp [dupdate, h1, dlookup, ih]

/-- The record of the updated slug after a get-or-create update. -/
theorem getRec_dupdate_self (d : Data) (k : String) (f : FieldData → FieldData) :
    getRec (dupdate FieldData.empty d k f) k = f (getRec d k) := by
  unfold getRec
  rw [dlookup_dupdate_self]
  cases dlookup d k <;> simp

/-- One finalize step leaves lookups at untouched keys unchanged. -/
theorem finStep_untouched (acc : FMap) (kv : String × FieldData) (key : String)
    (ha : aliasOf kv.1 kv.2 ≠ key) (hs : kv.1 ≠ key) :
    dlookup (finStep acc kv) key = dlookup acc key := by
  unfold finStep
  by_cases he : aliasOf kv.1 kv.2 = kv.1
  · simp only [he, if_pos]
    rw [dlookup_dinsert_ne _ _ _ _ hs]
  · simp only [he, if_neg, ite_false]
    rw [dlookup_dinsert_ne _ _ _ _ hs, dlookup_dinsert_ne _ _ _ _ ha]

/-- Folding finalize steps whose keys avoid a given key leaves its lookup
unchanged. -/
theorem foldl_finStep_untouched (rest : Data) (acc : FMap) (key : String)
    (h : ∀ kv ∈ rest, aliasOf kv.1 kv.2 ≠ key ∧ kv.1 ≠ key) :
    dlookup (rest.foldl finStep acc) key = dlookup acc key := by
  induction rest generalizing acc with
  | nil => rfl
  | cons hd tl ih =>
    rw [List.foldl_cons, ih (finStep acc hd) (fun kv hm => h kv (List.mem_cons_of_mem _ hm))]
    obtain ⟨ha, hs⟩ := h hd (List.mem_cons_self _ _)
    exact finStep_untouched acc hd key ha hs

/-- After one finalize step, the alias key of the processed slug holds its
wrapped record. -/
theorem finStep_self_alias (acc : FMap) (s : String) (r : FieldData) :
    dlookup (finStep acc (s, r)) (aliasOf s r) = some ⟨r⟩ := by
  unfold finStep
  by_cases he : aliasOf (s, r).1 (s, r).2 = (s, r).1
  · simp only [he, ite_true, if_pos]
    exact dlookup_dinsert_self _ _ _
  · simp only [he, ite_false, if_neg, not_false_iff]
    rw [dlookup_dinsert_ne _ _ _ _ (fun hh : s = aliasOf s r => he hh.symm)]
    exact dlookup_dinsert_self _ _ _

/-- After one finalize step with a distinct alias, the raw slug key also
holds the wrapped record. -/
theorem finStep_self_slug (acc : FMap) (s : String) (r : FieldData)
    (hne : aliasOf s r ≠ s) : dlookup (finStep acc (s, r)) s = some ⟨r⟩ := by
  unfold finStep
  simp only [hne, ite_false]
  exact dlookup_dinsert_self _ _ _

/-- Membership version of finalize over an arbitrary starting accumulator:
with pairwise non-colliding keys, every accumulated record is reachable
under its alias and, when distinct, under its raw slug. -/
theorem finalize_mem (rest : Data) (acc : FMap) (s : String) (r : FieldData)
    (hp : rest.Pairwise noCollide) (hm : (s, r) ∈ rest) :
    dlookup (rest.foldl finStep acc) (aliasOf s r) = some ⟨r⟩ ∧
    (aliasOf s r ≠ s → dlookup (rest.foldl finStep acc) s = some ⟨r⟩) := by
  induction rest generalizing acc with
  | nil => cases hm
  | cons hd tl ih =>
    rw [List.foldl_cons]
    obtain ⟨hrel, htl⟩ := List.pairwise_cons.mp hp
    rcases List.mem_cons.mp hm with heq | hmem
    · subst heq
      constructor
      · rw [foldl_finStep_untouched tl (finStep acc (s, r)) (aliasOf s r)
              (fun kv hk => ⟨fun hh => (hrel kv hk).1 hh.symm,
                             fun hh => (hrel kv hk).2.1 hh.symm⟩)]
        exact finStep_self_alias acc s r
      · intro hne
        rw [foldl_finStep_untouched tl (finStep acc (s, r)) s
              (fun kv hk => ⟨fun hh => (hrel kv hk).2.2.1 hh.symm,
                             fun hh => (hrel kv hk).2.2.2 hh.symm⟩)]
        exact finStep_self_slug acc s r hne
    · exact ih (finStep acc hd) htl hmem

/-- C1 counterexample: on the concrete tree treeRekey the finalized mapping
differs from what the claim words predict. The slug ending in a colon gets
an extra key with the colons stripped from the slug itself (the literal
claim would file it under the raw slug only), and the key B derived from
the label of slug A resolves to the record of slug B, not to the record of
slug A, so the two keys the claim promises for slug A do not map to the
same record. -/
theorem claim1_counterexample :
    (runVisitor treeRekey).map (fun m => (dlookup m "C").isSome) = .ok true
    ∧ ((visitTree [] treeRekey).map finalizeClaimed).map
        (fun m => (dlookup m "C").isSome) = .ok false
    ∧ (runVisitor treeRekey).map (fun m => (dlookup m "A").map (fun f => f.data.label))
        = .ok (some (some "B"))
    ∧ (runVisitor treeRekey).map (fun m => (dlookup m "B").map (fun f => f.data.label))
        = .ok (some none) :=
  ⟨rfl, rfl, rfl, rfl⟩

/-- C1 (amended): for every finalized aggregation, each accumulated slug
record is inserted under the key obtained from its label (or from the raw
slug when no label was set) by stripping ALL leading and trailing colons,
and additionally under the raw slug when that key differs; provided the
derived keys and raw slugs of distinct slugs do not collide, both keys
resolve to the same wrapped record and no record is dropped. -/
theorem claim1_aliasing (d : Data) (hp : d.Pairwise noCollide) (s : String)
    (r : FieldData) (hm : (s, r) ∈ d) :
    dlookup (finalizeData d) (aliasOf s r) = some ⟨r⟩ ∧
    (aliasOf s r ≠ s → dlookup (finalizeData d) s = some ⟨r⟩) :=
  finalize_mem d [] s r hp hm

/-- C1 witness: the amended finalize property evaluated on a concrete
one-slug accumulation whose label carries a trailing colon. -/
theorem claim1_aliasing_witness :
    dlookup (finalizeData [("Stat", ⟨some "Status:", none, none⟩)])
        (aliasOf "Stat" ⟨some "Status:", none, none⟩) = some ⟨⟨some "Status:", none, none⟩⟩ ∧
    (aliasOf "Stat" ⟨some "Status:", none, none⟩ ≠ "Stat" →
      dlookup (finalizeData [("Stat", ⟨some "Status:", none, none⟩)]) "Stat"
        = some ⟨⟨some "Status:", none, none⟩⟩) :=
  claim1_aliasing [("Stat", ⟨some "Status:", none, none⟩)]
    (List.pairwise_singleton _ _) "Stat" ⟨some "Status:", none, none⟩
    (List.mem_singleton.mpr rfl)

/-- C2 counterexample: on the concrete tree treeLabelOverwrite the anchor
sets the label of slug A to L1, and the later label span, whose first-child
text rule the claim says fires only when the label is absent, overwrites it
with L2. -/
theorem claim2_counterexample :
    (visitOne [] anchorL1).map (fun d => (dlookup d "A").map FieldData.label)
      = .ok (some (some "L1"))
    ∧ (visitTree [] treeLabelOverwrite).map (fun d => (dlookup d "A").map FieldData.label)
      = .ok (some (some "L2"))
    ∧ ("L2" : String) ≠ "L1" :=
  ⟨rfl, rfl, by decide⟩

/-- C2 (amended): per visit the attributes accumulate asymmetrically, but
only the anchor rule is guarded: an anchor visit never overwrites an
existing label (its rendered-text label derivation fires only when the
label is absent), whereas the span first-child-text rule overwrites the
label unconditionally (last writer wins for the label among such spans),
and node is overwritten by EVERY later matching visit for the same slug, a
matching anchor, a span matching the plain label pattern, a span matching
the table-cell pattern, or a td cell, so the last writer wins for node. -/
theorem claim2_label_node_policy :
    (∀ (d : Data) (n : Node) (idv href slug : String) (d1 : Data) (l : String),
       Node.tag n = "a" → Node.attr n "id" = some idv → Node.attr n "href" = some href →
       reHyp idv = some slug → visitOne d n = .ok d1 → (getRec d slug).label = some l →
       (getRec d1 slug).label = some l)
    ∧ (∀ (d : Data) (n : Node) (idv slug : String) (d1 : Data) (c : Node) (t : String),
       Node.tag n = "span" → Node.attr n "id" = some idv → reLblX idv = some slug →
       (Node.children n).headOpt = some c → Node.text c = some t → visitOne d n = .ok d1 →
       (getRec d1 slug).label = some (stripColons (pyStrip t)))
    ∧ (∀ (d : Data) (n : Node) (idv href slug : String) (d1 : Data),
       Node.tag n = "a" → Node.attr n "id" = some idv → Node.attr n "href" = some href →
       reHyp idv = some slug → visitOne d n = .ok d1 →
       (getRec d1 slug).node = some n)
    ∧ (∀ (d : Data) (n : Node) (idv slug : String) (d1 : Data),
       Node.tag n = "span" → Node.attr n "id" = some idv → reLblX idv = none →
       reLbl idv = some slug → visitOne d n = .ok d1 →
       (getRec d1 slug).node = some n)
    ∧ (∀ (d : Data) (n : Node) (idv slug : String) (d1 : Data),
       Node.tag n = "span" → Node.attr n "id" = some idv → reLblX idv = none →
       reLbl idv = none → reTd idv = some slug → visitOne d n = .ok d1 →
       (getRec d1 slug).node = some n)
    ∧ (∀ (d : Data) (n : Node) (idv slug : String) (d1 : Data),
       Node.tag n = "td" → Node.attr n "id" = some idv → reTd idv = some slug →
       visitOne d n = .ok d1 → (getRec d1 slug).node = some n) := by
  refine ⟨?_, ?_, ?_, ?_, ?_, ?_⟩
  · intro d n idv href slug d1 l htag hid hhref hre hvis hlab
    simp [visitOne, htag, visit_a, hid, hhref, hre] at hvis
    subst hvis
    rw [getRec_dupdate_self]
    unfold anchorUpd
    simp [hlab]
  · intro d n idv slug d1 c t htag hid hre hc ht hvis
    simp [visitOne, htag, visit_span, hid, hre, hc, ht] at hvis
    subst hvis
    rw [getRec_dupdate_self]
  · intro d n idv href slug d1 htag hid hhref hre hvis
    simp [visitOne, htag, visit_a, hid, hhref, hre] at hvis
    subst hvis
    rw [getRec_dupdate_self]
    unfold anchorUpd
    cases hl : (getRec d slug).label with
    | none => simp [hl]
    | some l => simp [hl]
  · intro d n idv slug d1 htag hid hx hre hvis
    simp [visitOne, htag, visit_span, hid, hx, hre] at hvis
    subst hvis
    rw [getRec_dupdate_self]
  · intro d n idv slug d1 htag hid hx hlb hre hvis
    simp [visitOne, htag, visit_span, hid, hx, hlb, hre] at hvis
    subst hvis
    rw [getRec_dupdate_self]
  · intro d n idv slug d1 htag hid hre hvis
    simp [visitOne, htag, visit_td, hid, hre] at hvis
    subst hvis
    rw [getRec_dupdate_self]

/-- C2 witness: the six amended conjuncts applied at concrete inputs: an
anchor visiting a slug that already holds a label leaves it; a label span
overwrites the label of slug A with L2; and a matching anchor, a span
matching the plain label pattern, a span matching the table-cell pattern
and a td cell each overwrite the node of a record that already holds a
different node. -/
theorem claim2_label_node_policy_witness :
    (getRec [("A", (⟨some "L", some anchorL1, some "u"⟩ : FieldData))] "A").label = some "L"
    ∧ (getRec (dupdate FieldData.empty [] "A"
        (fun r => { r with label := some (stripColons (pyStrip "L2")) })) "A").label
        = some (stripColons (pyStrip "L2"))
    ∧ (getRec (dupdate FieldData.empty [("A", ⟨some "L", some tdSlugB, none⟩)] "A"
        (anchorUpd anchorL1 "u")) "A").node = some anchorL1
    ∧ (getRec (dupdate FieldData.empty [("B", ⟨none, some anchorL1, none⟩)] "B"
        (fun r => { r with node := some spanPlainLblB })) "B").node = some spanPlainLblB
    ∧ (getRec (dupdate FieldData.empty [("B", ⟨none, some anchorL1, none⟩)] "B"
        (fun r => { r with node := some spanTdB })) "B").node = some spanTdB
    ∧ (getRec (dupdate FieldData.empty [("B", ⟨none, some anchorL1, none⟩)] "B"
        (fun r => { r with node := some tdSlugB })) "B").node = some tdSlugB := by
  refine ⟨?_, ?_, ?_, ?_, ?_, ?_⟩
  · exact claim2_label_node_policy.1 [("A", ⟨some "L", some anchorL1, some "u"⟩)]
      anchorL1 "_hypA" "u" "A" _ "L" rfl rfl rfl rfl rfl rfl
  · exact claim2_label_node_policy.2.1 [] spanLabelAL2 "_lblAX" "A" _
      (.mk "font" [] (some "L2") none .nil) "L2" rfl rfl rfl rfl rfl rfl
  · exact claim2_label_node_policy.2.2.1 [("A", ⟨some "L", some tdSlugB, none⟩)]
      anchorL1 "_hypA" "u" "A" _ rfl rfl rfl rfl rfl
  · exact claim2_label_node_policy.2.2.2.1 [("B", ⟨none, some anchorL1, none⟩)]
      spanPlainLblB "_lblB" "B" _ rfl rfl rfl rfl rfl
  · exact claim2_label_node_policy.2.2.2.2.1 [("B", ⟨none, some anchorL1, none⟩)]
      spanTdB "_tdB" "B" _ rfl rfl rfl rfl rfl rfl
  · exact claim2_label_node_policy.2.2.2.2.2 [("B", ⟨none, some anchorL1, none⟩)]
      tdSlugB "_tdB" "B" _ rfl rfl rfl rfl

/-- C9 counterexample: an anchor whose rendered text begins with a colon;
the code strips ALL surrounding colons, so the stored label is View, while
the claim words (strip one trailing colon) predict colon-View. -/
theorem claim9_counterexample :
    (dlookup (visit_a [] anchorColon) "A").map FieldData.label = some (some "View")
    ∧ stripTrailingColonClaimed (pyStrip (renderText anchorColon)) = ":View"
    ∧ (some (some ("View" : String)) : Option (Option String)) ≠ some (some ":View") :=
  ⟨rfl, rfl, by decide⟩

/-- C9 (amended): an anchor visit with a missing identifier, a missing link
target, or an identifier the hyperlink pattern rejects has no effect; a
matching anchor sets url to the link target, node to the anchor, and label
to the previous label when one exists, else to the rendered anchor text
stripped of surrounding whitespace and of ALL leading and trailing colons. -/
theorem claim9_visit_a :
    (∀ (d : Data) (n : Node),
       Node.tag n = "a" →
       (Node.attr n "id" = none ∨ Node.attr n "href" = none ∨
        (∃ idv, Node.attr n "id" = some idv ∧ reHyp idv = none)) →
       visitOne d n = .ok d)
    ∧ (∀ (d : Data) (n : Node) (idv href slug : String),
       Node.tag n = "a" → Node.attr n "id" = some idv → Node.attr n "href" = some href →
       reHyp idv = some slug →
       visitOne d n = .ok (dupdate FieldData.empty d slug (anchorUpd n href))
       ∧ (getRec (dupdate FieldData.empty d slug (anchorUpd n href)) slug).url = some href
       ∧ (getRec (dupdate FieldData.empty d slug (anchorUpd n href)) slug).node = some n
       ∧ (getRec (dupdate FieldData.empty d slug (anchorUpd n href)) slug).label
           = some (((getRec d slug).label).getD (stripColons (pyStrip (renderText n))))) := by
  constructor
  · intro d n htag hskip
    rcases hskip with hid | hhref | ⟨idv, hid, hre⟩
    · simp [visitOne, htag, visit_a, hid]
    · cases hi : Node.attr n "id" with
      | none => simp [visitOne, htag, visit_a, hi]
      | some idv => simp [visitOne, htag, visit_a, hi, hhref]
    · cases hh : Node.attr n "href" with
      | none => simp [visitOne, htag, visit_a, hid, hh]
      | some href => simp [visitOne, htag, visit_a, hid, hh, hre]
  · intro d n idv href slug htag hid hhref hre
    refine ⟨?_, ?_⟩
    · simp [visitOne, htag, visit_a, hid, hhref, hre]
    · rw [getRec_dupdate_self]
      unfold anchorUpd
      cases hl : (getRec d slug).label with
      | none => simp [hl]
      | some l => simp [hl]

/-- C9 witness: both amended conjuncts at concrete anchors: an anchor with
no href is skipped, and the matching colon-text anchor stores url, node and
the fully stripped label. -/
theorem claim9_visit_a_witness :
    visitOne [] (.mk "a" [("id", "_hypA")] (some "x") none .nil) = .ok []
    ∧ ((visitOne [] anchorColon
          = .ok (dupdate FieldData.empty [] "A" (anchorUpd anchorColon "u")))
       ∧ (getRec (dupdate FieldData.empty [] "A" (anchorUpd anchorColon "u")) "A").url
           = some "u"
       ∧ (getRec (dupdate FieldData.empty [] "A" (anchorUpd anchorColon "u")) "A").node
           = some anchorColon
       ∧ (getRec (dupdate FieldData.empty [] "A" (anchorUpd anchorColon "u")) "A").label
           = some (((getRec [] "A").label).getD
               (stripColons (pyStrip (renderText anchorColon))))) :=
  ⟨claim9_visit_a.1 [] (.mk "a" [("id", "_hypA")] (some "x") none .nil) rfl
      (Or.inr (Or.inl rfl)),
   claim9_visit_a.2 [] anchorColon "_hypA" "u" "A" rfl rfl rfl rfl⟩

/-- Reduction of an Except bind over a success value. -/
theorem except_bind_ok {α β : Type} (a : α) (f : α → Except String β) :
    Bind.bind (Except.ok a) f = f a := rfl

/-- Reduction of pure into the success constructor for Except. -/
theorem except_pure_eq {α : Type} (a : α) :
    (pure a : Except String α) = Except.ok a := rfl

/-- Scrubbing the empty string yields the empty string. -/
theorem scrub_text_empty : scrub_text "" = "" := rfl

/-- A list-of-characters view of string non-emptiness. -/
theorem data_ne_nil (s : String) (h : s ≠ "") : s.data ≠ [] :=
  fun hd => h (String.ext (by rw [hd]))

/-- Data of the one-space string literal. -/
theorem space_data : (" " : String).data = [' '] := rfl

/-- Data of the two-space string literal. -/
theorem two_space_data : ("  " : String).data = [' ', ' '] := rfl

mutual
/-- The renderer only ever appends to its buffer (node case). -/
theorem renderN_pre (buf : List Char) (n : Node) : ∃ s, renderN buf n = buf ++ s := by
  cases n with
  | mk t a tx tl ch =>
    simp only [renderN]
    obtain ⟨s, hs⟩ := renderL_pre
      ((if buf = [] then buf else buf ++ [' ']) ++ (scrub_text (tx.getD "")).data) ch
    rw [hs]
    by_cases h : buf = [] <;> simp [h]
/-- The renderer only ever appends to its buffer (children-list case). -/
theorem renderL_pre (buf : List Char) (ns : NodeList) : ∃ s, renderL buf ns = buf ++ s := by
  cases ns with
  | nil => exact ⟨[], by simp [renderL]⟩
  | cons h t =>
    obtain ⟨s1, h1⟩ := renderN_pre buf h
    obtain ⟨s2, h2⟩ := renderL_pre (renderN buf h) t
    exact ⟨s1 ++ s2, by rw [renderL, h2, h1, List.append_assoc]⟩
end

/-- Rendering a childless text leaf appends its scrubbed text, preceded by
one space exactly when the buffer is non-empty. -/
theorem renderN_leaf (buf : List Char) (t : String) :
    renderN buf (leafNode t) =
      (if buf = [] then buf else buf ++ [' ']) ++ (scrub_text t).data := by
  simp [renderN, leafNode, renderL, scrub_text_empty]

/-- Two sibling fragments with non-empty scrubbed text render with exactly
one separating space. -/
theorem renderText_pair (ta tb : String) (ha : scrub_text ta ≠ "") :
    renderText (pairTree ta tb) = scrub_text ta ++ " " ++ scrub_text tb := by
  have hA : (scrub_text ta).data ≠ [] := data_ne_nil _ ha
  apply String.ext
  rw [String.data_append, String.data_append, space_data]
  simp [renderText, TextRenderer.new, TextRenderer.visitRun, TextRenderer.result,
        pairTree, leafNode, renderN, renderL, scrub_text_empty, hA,
        List.append_assoc]

/-- An intervening fragment whose scrubbed text is empty still receives its
separating space, so two spaces end up between the flanking fragments. -/
theorem renderText_triple (ta tb : String) (ha : scrub_text ta ≠ "") :
    renderText (tripleEmptyTree ta tb) = scrub_text ta ++ "  " ++ scrub_text tb := by
  have hA : (scrub_text ta).data ≠ [] := data_ne_nil _ ha
  apply String.ext
  rw [String.data_append, String.data_append, two_space_data]
  simp [renderText, TextRenderer.new, TextRenderer.visitRun, TextRenderer.result,
        tripleEmptyTree, leafNode, renderN, renderL, scrub_text_empty, hA,
        List.append_assoc]

/-- C3 counterexample: on the concrete tree with fragments a, empty, b the
renderer produces a-space-space-b, a double space, although the claim says
no double spaces arise from fragments whose scrubbed text is empty. -/
theorem claim3_counterexample :
    renderText treeSpacing = "a  b" ∧ renderText treeSpacing ≠ "a b" :=
  ⟨rfl, by decide⟩

/-- C3 (amended): one separating space is appended before every visited
node while the buffer is non-empty, whether or not the node text is empty;
hence two non-empty sibling fragments are separated by exactly one space,
but an empty fragment between two non-empty ones yields two spaces. -/
theorem claim3_spacing :
    (∀ (buf : List Char) (n : Node), buf ≠ [] → ∃ s, renderN buf n = buf ++ ' ' :: s)
    ∧ (∀ ta tb : String, scrub_text ta ≠ "" → scrub_text tb ≠ "" →
        renderText (pairTree ta tb) = scrub_text ta ++ " " ++ scrub_text tb)
    ∧ (∀ ta tb : String, scrub_text ta ≠ "" → scrub_text tb ≠ "" →
        renderText (tripleEmptyTree ta tb) = scrub_text ta ++ "  " ++ scrub_text tb) := by
  refine ⟨?_, fun ta tb ha _ => renderText_pair ta tb ha,
          fun ta tb ha _ => renderText_triple ta tb ha⟩
  intro buf n hb
  cases n with
  | mk t a tx tl ch =>
    have hif : (if buf = [] then buf else buf ++ [' ']) = buf ++ [' '] := if_neg hb
    obtain ⟨s0, hs0⟩ := renderL_pre (buf ++ [' '] ++ (scrub_text (tx.getD "")).data) ch
    refine ⟨(scrub_text (tx.getD "")).data ++ s0 ++ (scrub_text (tl.getD "")).data, ?_⟩
    simp only [renderN]
    rw [hif, hs0]
    simp [List.append_assoc]

/-- C3 witness: the amended spacing facts at concrete inputs: a leaf
rendered into the non-empty buffer x gains a leading space, and the pair
and triple trees over fragments a and b render with one and two separating
spaces respectively. -/
theorem claim3_spacing_witness :
    (∃ s, renderN ['x'] (leafNode "a") = ['x'] ++ ' ' :: s)
    ∧ renderText (pairTree "a" "b") = scrub_text "a" ++ " " ++ scrub_text "b"
    ∧ renderText (tripleEmptyTree "a" "b") = scrub_text "a" ++ "  " ++ scrub_text "b" :=
  ⟨claim3_spacing.1 ['x'] (leafNode "a") (by decide),
   claim3_spacing.2.1 "a" "b" (by decide) (by decide),
   claim3_spacing.2.2 "a" "b" (by decide) (by decide)⟩

/-- C4: the Text Renderer is idempotent: two renders of the same node, each
constructing a fresh renderer instance with an empty accumulation buffer
exactly as every call site does, produce the same string, and that string
is the one-shot render result. -/
theorem claim4_render_idempotent (n : Node) :
    (renderSeq n).1 = (renderSeq n).2 ∧ (renderSeq n).1 = renderText n :=
  ⟨rfl, rfl⟩

/-- C5: for every field whose wrapped node is present, get_text returns
absent exactly when the freshly rendered text equals the sentinel string
Not available, and returns the rendered text itself in every other case. -/
theorem claim5_get_text (f : DetailField) (n : Node) (h : f.data.node = some n) :
    f.get_text = .ok (if renderText n = "Not available" then none
                      else some (renderText n)) := by
  have hn : f.node = .ok n := by unfold DetailField.node; rw [h]
  unfold DetailField.get_text
  rw [hn, except_bind_ok]
  by_cases hc : renderText n = "Not available"
  · rw [if_pos (show isBlankPlaceholder (renderText n) = true by
        simp [isBlankPlaceholder, hc]), if_pos hc]
    rfl
  · rw [if_neg (show ¬isBlankPlaceholder (renderText n) = true by
        simp [isBlankPlaceholder, hc]), if_neg hc]
    rfl

/-- C5 witness: get_text on a concrete field wrapping a leaf whose text is
hello, via the theorem at that input. -/
theorem claim5_get_text_witness :
    DetailField.get_text ⟨⟨none, some (leafNode "hello"), none⟩⟩
      = .ok (if renderText (leafNode "hello") = "Not available" then none
             else some (renderText (leafNode "hello"))) :=
  claim5_get_text ⟨⟨none, some (leafNode "hello"), none⟩⟩ (leafNode "hello") rfl

/-- C6: the claim restates the failure-semantics requirement of the spec
(accessors on a partially-populated record must degrade gracefully), but
the code violates it: on a record holding only a label and no node, both
get_text and get_url raise KeyError through the node property instead of
returning an absent result. -/
theorem claim6_partial_record_raises :
    DetailField.get_text ⟨⟨some "Status", none, none⟩⟩ = .error "KeyError"
    ∧ DetailField.get_url ⟨⟨some "Status", none, none⟩⟩ = .error "KeyError" :=
  ⟨rfl, rfl⟩

/-- C7: for every field with a wrapped node, is_blank is true exactly when
a fresh render of the wrapped node text equals the sentinel Not available
(the backing text attribute is spec-modelled as a fresh render). -/
theorem claim7_is_blank (f : DetailField) (n : Node) (h : f.data.node = some n) :
    (f.is_blank = .ok true ↔ renderText n = "Not available") := by
  have hn : f.node = .ok n := by unfold DetailField.node; rw [h]
  unfold DetailField.is_blank DetailField.freshText
  rw [hn, except_bind_ok, except_pure_eq, except_bind_ok, except_pure_eq]
  simp [isBlankPlaceholder]

/-- C7 witness: is_blank on a concrete field wrapping a leaf whose text is
the sentinel, via the theorem at that input. -/
theorem claim7_is_blank_witness :
    DetailField.is_blank ⟨⟨none, some (leafNode "Not available"), none⟩⟩ = .ok true
      ↔ renderText (leafNode "Not available") = "Not available" :=
  claim7_is_blank ⟨⟨none, some (leafNode "Not available"), none⟩⟩
    (leafNode "Not available") rfl

/-- The get_mimetype loop is the first image descendant with a src
attribute, mapped through the one-entry table. -/
theorem imgLoop_eq (marker : String) (l : List Node) :
    imgLoop marker l =
      match (l.filter (fun d => (Node.attr d "src").isSome)).head? with
      | none => .ok none
      | some d => if urlparsePath ((Node.attr d "src").getD "") = marker
                  then .ok (some "application/pdf") else .error "KeyError" := by
  induction l with
  | nil => rfl
  | cons hd tl ih =>
    cases hsrc : Node.attr hd "src" with
    | none => simp [imgLoop, hsrc, List.filter_cons, ih]
    | some u => simp [imgLoop, hsrc, List.filter_cons]

/-- C8: get_mimetype scans the image-tagged descendants of the parent of
the wrapped node for the first one with a src attribute: absent when none
exists, application-pdf when its url path equals the configured marker
path, and a KeyError lookup failure on any other path. -/
theorem claim8_get_mimetype (marker : String) (f : DetailField) (parent : Node)
    (n : Node) (h : f.data.node = some n) :
    DetailField.get_mimetype marker f parent =
      match firstImgWithSrc parent with
      | none => .ok none
      | some d => if urlparsePath ((Node.attr d "src").getD "") = marker
                  then .ok (some "application/pdf") else .error "KeyError" := by
  unfold DetailField.get_mimetype DetailField.node
  rw [h]
  show imgLoop marker ((descendants parent).filter (fun d => decide (Node.tag d = "img")))
      = _
  rw [imgLoop_eq]
  unfold firstImgWithSrc
  rw [List.filter_filter]
  have : (fun d => (Node.attr d "src").isSome && decide (Node.tag d = "img"))
       = (fun d => decide (Node.tag d = "img") && (Node.attr d "src").isSome) :=
    funext fun d => Bool.and_comm _ _
  rw [this]

/-- C8 witness: get_mimetype on a concrete field whose parent holds one
image with the marker path, via the theorem at that input. -/
theorem claim8_get_mimetype_witness :
    DetailField.get_mimetype "/pdf.gif" ⟨⟨none, some imgPdf, none⟩⟩ parentWithImg =
      match firstImgWithSrc parentWithImg with
      | none => .ok none
      | some d => if urlparsePath ((Node.attr d "src").getD "") = "/pdf.gif"
                  then .ok (some "application/pdf") else .error "KeyError" :=
  claim8_get_mimetype "/pdf.gif" ⟨⟨none, some imgPdf, none⟩⟩ parentWithImg imgPdf rfl

/-- A span matched by the childless label rule makes its own visit raise,
whatever the accumulation holds. -/
theorem badSpan_visitOne (d : Data) (n : Node) (hb : badSpan n = true) :
    visitOne d n = .error "IndexError" := by
  unfold badSpan at hb
  simp only [Bool.and_eq_true, decide_eq_true_eq, Option.isNone_iff_eq_none] at hb
  obtain ⟨⟨htag, hid⟩, hch⟩ := hb
  cases hi : Node.attr n "id" with
  | none => rw [hi] at hid; cases hid
  | some idv =>
    rw [hi] at hid
    obtain ⟨slug, hre⟩ := Option.isSome_iff_exists.mp hid
    simp [visitOne, htag, visit_span, hi, hre, hch]

/- Mutual induction for error propagation: a childless matching span
anywhere in the pre-order listing makes the traversal fail. -/
mutual
theorem visitTree_err (d : Data) (n : Node) (h : (preorderN n).any badSpan = true) :
    ∃ e, visitTree d n = .error e := by
  cases n with
  | mk t a tx tl ch =>
    rw [preorderN, List.any_cons] at h
    cases hb : badSpan (.mk t a tx tl ch) with
    | true =>
      exact ⟨"IndexError", by rw [visitTree, badSpan_visitOne d _ hb]⟩
    | false =>
      have h2 : (preorderL ch).any badSpan = true := by
        rw [Bool.or_eq_true] at h
        rcases h with h1 | h1
        · rw [hb] at h1; cases h1
        · exact h1
      rw [visitTree]
      cases ho : visitOne d (.mk t a tx tl ch) with
      | error e => exact ⟨e, rfl⟩
      | ok d1 => exact visitList_err d1 ch h2
theorem visitList_err (d : Data) (ns : NodeList)
    (h : (preorderL ns).any badSpan = true) : ∃ e, visitList d ns = .error e := by
  cases ns with
  | nil => simp [preorderL] at h
  | cons hd tl =>
    rw [preorderL, List.any_append] at h
    rw [visitList]
    cases ht : visitTree d hd with
    | error e => exact ⟨e, rfl⟩
    | ok d1 =>
      have h2 : (preorderL tl).any badSpan = true := by
        rw [Bool.or_eq_true] at h
        rcases h with h1 | h1
        · obtain ⟨e, he⟩ := visitTree_err d hd h1
          rw [ht] at he
          cases he
        · exact h1
      exact visitList_err d1 tl h2
end

/-- C10: a span whose identifier matches the label-with-X pattern but that
has no children makes the visitor read children[0] out of bounds: its own
visit raises IndexError whatever the accumulation holds, and a tree
containing such a span anywhere makes the whole aggregation fail. -/
theorem claim10_lblx_indexerror :
    (∀ (d : Data) (n : Node) (idv slug : String),
       Node.tag n = "span" → Node.attr n "id" = some idv → reLblX idv = some slug →
       (Node.children n).headOpt = none → visitOne d n = .error "IndexError")
    ∧ (∀ (d : Data) (t : Node), containsBadSpan t = true →
       ∃ e, visitTree d t = .error e) := by
  constructor
  · intro d n idv slug htag hid hre hch
    simp [visitOne, htag, visit_span, hid, hre, hch]
  · intro d t hc
    exact visitTree_err d t hc

/-- C10 witness: the two conjuncts at concrete inputs: the childless span
with identifier lbl-Z-X raises IndexError, and the concrete tree containing
it fails as a whole. -/
theorem claim10_lblx_indexerror_witness :
    visitOne [] badSpanZ = .error "IndexError"
    ∧ (∃ e, visitTree [] treeBadSpan = .error e) :=
  ⟨claim10_lblx_indexerror.1 [] badSpanZ "_lblZX" "Z" rfl rfl rfl rfl,
   claim10_lblx_indexerror.2 [] treeBadSpan rfl⟩

end LegistarDetail
